import Mathlib

/-!
Verification of the PDF-renaming pipeline (`pdfs_ai_rename.py`).

Strings are modelled as `List Char` (Python slicing and `len` operate on
code points, as does `List Char`).  The external tiktoken `cl100k_base`
tokenizer is modelled as an opaque parameter `tc : List Char → Nat`
giving the token count of a string; the one fact of the real tokenizer
that the code relies on (`encode("") = []`, i.e. the empty string has
token count 0) appears as an explicit hypothesis `tc [] = 0` where
needed.  The wall clock (`time.gmtime()`) is modelled as an explicit
`Tm` record parameter.  Fallible external operations (the OpenAI call,
`os.rename`) are modelled as `Option`/`Bool`-valued parameters; an
uncaught Python exception is modelled as `Except.error`.
-/

/-- The module-level constant `max_length = 15000` (a token budget). -/
def max_length : Nat := 15000

/-- Characters stripped by Python's `str.strip()` with no argument
(ASCII whitespace; the code only ever tests emptiness after stripping). -/
def isPySpace (c : Char) : Bool :=
  c == ' ' || c == '\t' || c == '\n' || c == '\r' || c == '\x0b' || c == '\x0c'

/-- Python `s.strip()`: drop leading and trailing whitespace. -/
def pyStrip (l : List Char) : List Char :=
  ((l.dropWhile isPySpace).reverse.dropWhile isPySpace).reverse

/-- A character kept by `re.sub(r'[^A-Za-z0-9_]', '', s)`: the class
`[A-Za-z0-9_]`, taken directly from the regex. -/
def isAllowedChar (c : Char) : Bool :=
  ('A' ≤ c && c ≤ 'Z') || ('a' ≤ c && c ≤ 'z') || ('0' ≤ c && c ≤ '9') || c == '_'

/-- A broken-down UTC time, as returned by `time.gmtime()`. -/
structure Tm where
  year : Nat
  month : Nat
  day : Nat
  hour : Nat
  minute : Nat
  second : Nat

/-- The ranges `time.gmtime()` actually produces (tm_sec admits a leap
second; the year of a real clock fits in four digits). -/
def Tm.valid (t : Tm) : Prop :=
  1000 ≤ t.year ∧ t.year ≤ 9999 ∧ 1 ≤ t.month ∧ t.month ≤ 12 ∧
  1 ≤ t.day ∧ t.day ≤ 31 ∧ t.hour ≤ 23 ∧ t.minute ≤ 59 ∧ t.second ≤ 60

/-- Two zero-padded decimal digits (the `%m`, `%d`, `%H`, `%M`, `%S`
directives of `strftime`, faithful for arguments below 100). -/
def pad2 (n : Nat) : List Char :=
  [Nat.digitChar (n / 10 % 10), Nat.digitChar (n % 10)]

/-- Four decimal digits (the `%Y` directive of `strftime`, faithful for
years between 1000 and 9999). -/
def pad4 (n : Nat) : List Char :=
  [Nat.digitChar (n / 1000 % 10), Nat.digitChar (n / 100 % 10),
   Nat.digitChar (n / 10 % 10), Nat.digitChar (n % 10)]

/-- `time.strftime('%Y%m%d%H%M%S', t)`: fourteen digits. -/
def strftime_YmdHMS (t : Tm) : List Char :=
  pad4 t.year ++ pad2 t.month ++ pad2 t.day ++
  pad2 t.hour ++ pad2 t.minute ++ pad2 t.second

/-- The fallback name `f'empty_file_{timestamp}'` built at
`pdfs_ai_rename.py:54-55` and `61-62`. -/
def empty_fallback (t : Tm) : List Char :=
  "empty_file_".toList ++ strftime_YmdHMS t

/-- `validate_and_trim_filename` (`pdfs_ai_rename.py:48-64`).  The input
is `Option` because the candidate may be absent; `none` and `some []`
both fail Python's `if not initial_filename:` truthiness test.  The
current time is passed explicitly instead of read from the clock. -/
def validate_and_trim_filename (t : Tm) (initial_filename : Option (List Char)) :
    List Char :=
  match initial_filename with
  | none => empty_fallback t
  | some s =>
    if s.isEmpty then empty_fallback t
    else
      let cleaned_filename := s.filter isAllowedChar
      if cleaned_filename.isEmpty then empty_fallback t
      else cleaned_filename.take 50

/-- `content_token_cut` (`pdfs_ai_rename.py:113-124`).  `int(len(content) * 0.9)`
is modelled as `content.length * 9 / 10` (floor; the float product is
exact in this range).  When the content is already empty the loop body
leaves it empty and recomputes `num_tokens = tc []`; if that recomputed
count still exceeds the budget the Python loop never exits, which the
model reports as `none`. -/
def content_token_cut (tc : List Char → Nat) (content : List Char)
    (num_tokens max_tokens : Nat) : Option (List Char) :=
  if num_tokens ≤ max_tokens then some content
  else if h : content.length = 0 then
    if tc content ≤ max_tokens then some content else none
  else
    content_token_cut tc (content.take (content.length * 9 / 10))
      (tc (content.take (content.length * 9 / 10))) max_tokens
termination_by content.length
decreasing_by
  simp only [List.length_take]
  omega

/-- The budgeting step of `pdfs_to_text_string` (`pdfs_ai_rename.py:107-111`):
count tokens, and call `content_token_cut` only when over budget. -/
def fit_to_budget (tc : List Char → Nat) (content : List Char) (max_tokens : Nat) :
    Option (List Char) :=
  if tc content > max_tokens then content_token_cut tc content (tc content) max_tokens
  else some content

/-- The placeholder installed at `pdfs_ai_rename.py:105`. -/
def placeholder : List Char := "Content is empty or contains only whitespace.".toList

/-- `pdfs_to_text_string` (`pdfs_ai_rename.py:95-111`) after the external
PDF extraction: `content` is the text extracted from the first page (or
`[]` when the file has no pages). -/
def pdfs_to_text_string (tc : List Char → Nat) (content : List Char) :
    Option (List Char) :=
  let content := if (pyStrip content).isEmpty then placeholder else content
  fit_to_budget tc content max_length

/-- The collision-avoidance step of `rename_pdfs_in_directory`
(`pdfs_ai_rename.py:84-86`), with the literal `".pdf"` generalised to an
`extension` parameter as in the spec's `deduplicate` contract (the
caller instantiates it with `pdf`). -/
def deduplicate (base : List Char) (existing : List (List Char))
    (extension : List Char) : List Char :=
  if (base ++ '.' :: extension) ∈ existing then base ++ "_01".toList else base

/-- What became of one directory entry inside the per-file loop. -/
inductive RenameOutcome where
  | renamed (newName : List Char)
  | renameError (newName : List Char)
  | skipped
deriving DecidableEq, Repr

/-- `filename.lower().endswith(".pdf")` (`pdfs_ai_rename.py:76`). -/
def ends_with_pdf (f : List Char) : Bool :=
  ".pdf".toList.isSuffixOf (f.map Char.toLower)

/-- The body of the per-file loop of `rename_pdfs_in_directory`
(`pdfs_ai_rename.py:75-93`) for one directory entry.  `extract` is the
external first-page text extraction, `gen` the external OpenAI call
(`none` = the call raised), `existingOf` the fresh directory listing
taken at line 84 while this entry is processed, and `renameOk` tells
whether `os.rename` to the given target succeeds.  `none` here means an
exception escaped the loop body: only `os.rename` sits in a
`try`/`except` (lines 89-93), so a failure of `gen` is not caught. -/
def process_one (tc : List Char → Nat) (t : Tm)
    (extract : List Char → List Char)
    (gen : List Char → Option (List Char))
    (existingOf : List Char → List (List Char))
    (renameOk : List Char → Bool)
    (f : List Char) : Option RenameOutcome :=
  if ends_with_pdf f then
    match pdfs_to_text_string tc (extract f) with
    | none => none
    | some content =>
      match gen content with
      | none => none
      | some response =>
        let new_file_name :=
          deduplicate (validate_and_trim_filename t (some (pyStrip response)))
            (existingOf f) "pdf".toList
        let target := new_file_name ++ ".pdf".toList
        if renameOk target then some (RenameOutcome.renamed target)
        else some (RenameOutcome.renameError target)
  else some RenameOutcome.skipped

/-- The per-directory loop of `rename_pdfs_in_directory`
(`pdfs_ai_rename.py:75-93`) over an already sorted file list.  An
uncaught exception in one iteration (`process_one _ = none`) aborts the
whole loop, reported as `Except.error` naming the file; otherwise the
outcomes are collected in order. -/
def rename_pdfs_in_directory (tc : List Char → Nat) (t : Tm)
    (extract : List Char → List Char)
    (gen : List Char → Option (List Char))
    (existingOf : List Char → List (List Char))
    (renameOk : List Char → Bool) :
    List (List Char) → Except (List Char) (List (List Char × RenameOutcome))
  | [] => Except.ok []
  | f :: rest =>
    match process_one tc t extract gen existingOf renameOk f with
    | none => Except.error f
    | some o =>
      match rename_pdfs_in_directory tc t extract gen existingOf renameOk rest with
      | Except.error e => Except.error e
      | Except.ok rs => Except.ok ((f, o) :: rs)

/-- A 50-character all-alphanumeric base name, used to exhibit a
53-character final base after the `_01` suffix. -/
def base50 : List Char := List.replicate 50 'a'

/-! ### Helper lemmas -/

theorem digitChar_isDigit (n : Nat) (h : n < 10) : (Nat.digitChar n).isDigit = true := by
  interval_cases n <;> decide

theorem pad2_all_digits (n : Nat) : (pad2 n).all Char.isDigit = true := by
  have h1 := digitChar_isDigit (n / 10 % 10) (Nat.mod_lt _ (by omega))
  have h2 := digitChar_isDigit (n % 10) (Nat.mod_lt _ (by omega))
  simp [pad2, h1, h2]

theorem pad4_all_digits (n : Nat) : (pad4 n).all Char.isDigit = true := by
  have h1 := digitChar_isDigit (n / 1000 % 10) (Nat.mod_lt _ (by omega))
  have h2 := digitChar_isDigit (n / 100 % 10) (Nat.mod_lt _ (by omega))
  have h3 := digitChar_isDigit (n / 10 % 10) (Nat.mod_lt _ (by omega))
  have h4 := digitChar_isDigit (n % 10) (Nat.mod_lt _ (by omega))
  simp [pad4, h1, h2, h3, h4]

theorem strftime_all_digits (t : Tm) : (strftime_YmdHMS t).all Char.isDigit = true := by
  simp [strftime_YmdHMS, List.all_append, pad2_all_digits, pad4_all_digits]

theorem strftime_length (t : Tm) : (strftime_YmdHMS t).length = 14 := by
  simp [strftime_YmdHMS, pad2, pad4]

theorem digitChar_isAllowed (n : Nat) (h : n < 10) :
    isAllowedChar (Nat.digitChar n) = true := by
  interval_cases n <;> decide

theorem pad2_all_allowed (n : Nat) : (pad2 n).all isAllowedChar = true := by
  have h1 := digitChar_isAllowed (n / 10 % 10) (Nat.mod_lt _ (by omega))
  have h2 := digitChar_isAllowed (n % 10) (Nat.mod_lt _ (by omega))
  simp [pad2, h1, h2]

theorem pad4_all_allowed (n : Nat) : (pad4 n).all isAllowedChar = true := by
  have h1 := digitChar_isAllowed (n / 1000 % 10) (Nat.mod_lt _ (by omega))
  have h2 := digitChar_isAllowed (n / 100 % 10) (Nat.mod_lt _ (by omega))
  have h3 := digitChar_isAllowed (n / 10 % 10) (Nat.mod_lt _ (by omega))
  have h4 := digitChar_isAllowed (n % 10) (Nat.mod_lt _ (by omega))
  simp [pad4, h1, h2, h3, h4]

theorem strftime_all_allowed (t : Tm) : (strftime_YmdHMS t).all isAllowedChar = true := by
  simp [strftime_YmdHMS, List.all_append, pad2_all_allowed, pad4_all_allowed]

theorem empty_fallback_length (t : Tm) : (empty_fallback t).length = 25 := by
  rw [empty_fallback, List.length_append, strftime_length]
  decide

theorem empty_fallback_ne (t : Tm) : empty_fallback t ≠ [] := by
  intro h
  have := congrArg List.length h
  rw [empty_fallback_length t] at this
  simp at this

theorem empty_fallback_allowed (t : Tm) : (empty_fallback t).all isAllowedChar = true := by
  rw [empty_fallback, List.all_append, Bool.and_eq_true]
  exact ⟨by decide, strftime_all_allowed t⟩

theorem validate_and_trim_spec (t : Tm) (initial_filename : Option (List Char)) :
    validate_and_trim_filename t initial_filename ≠ [] ∧
    (validate_and_trim_filename t initial_filename).length ≤ 50 ∧
    (validate_and_trim_filename t initial_filename).all isAllowedChar = true := by
  have hfb : empty_fallback t ≠ [] ∧ (empty_fallback t).length ≤ 50 ∧
      (empty_fallback t).all isAllowedChar = true :=
    ⟨empty_fallback_ne t, by rw [empty_fallback_length]; omega, empty_fallback_allowed t⟩
  match initial_filename with
  | none => simpa [validate_and_trim_filename] using hfb
  | some s =>
    by_cases hs : s.isEmpty = true
    · simpa [validate_and_trim_filename, hs] using hfb
    · by_cases hc : (s.filter isAllowedChar).isEmpty = true
      · simpa [validate_and_trim_filename, hs, hc] using hfb
      · have hne : s.filter isAllowedChar ≠ [] := by
          intro h
          rw [h] at hc
          exact hc rfl
        have hlen : 0 < (s.filter isAllowedChar).length := List.length_pos.mpr hne
        have hres : validate_and_trim_filename t (some s) =
            (s.filter isAllowedChar).take 50 := by
          simp [validate_and_trim_filename, hs, hc]
        refine ⟨?_, ?_, ?_⟩
        · rw [hres]
          intro h
          have := congrArg List.length h
          rw [List.length_take] at this
          simp only [List.length_nil] at this
          omega
        · rw [hres, List.length_take]
          omega
        · rw [hres, List.all_eq_true]
          intro c hcmem
          exact List.of_mem_filter (List.mem_of_mem_take hcmem)

theorem take_shrinks (content : List Char) (h : content.length ≠ 0) :
    (content.take (content.length * 9 / 10)).length < content.length := by
  rw [List.length_take]
  omega

theorem content_token_cut_sound (tc : List Char → Nat) (m : Nat) (h0 : tc [] = 0) :
    ∀ (n : Nat) (content : List Char), content.length ≤ n →
      ∃ r, content_token_cut tc content (tc content) m = some r ∧ tc r ≤ m := by
  intro n
  induction n with
  | zero =>
    intro content hc
    have hnil : content = [] := List.length_eq_zero.mp (Nat.le_zero.mp hc)
    subst hnil
    refine ⟨[], ?_, by rw [h0]; exact Nat.zero_le m⟩
    unfold content_token_cut
    rw [h0]
    simp
  | succ k ih =>
    intro content hc
    by_cases hg : tc content ≤ m
    · exact ⟨content, by unfold content_token_cut; simp [hg], hg⟩
    · have hne : content.length ≠ 0 := by
        intro hz
        rw [List.length_eq_zero.mp hz, h0] at hg
        omega
      have hlt := take_shrinks content hne
      obtain ⟨r, hr, hrm⟩ := ih (content.take (content.length * 9 / 10)) (by omega)
      refine ⟨r, ?_, hrm⟩
      unfold content_token_cut
      rw [if_neg hg, dif_neg hne]
      exact hr

/-! ### Claim theorems -/

/-- Claim C1: for every content string and every token budget
`max_tokens > 0`, the budgeting pipeline (`content_token_cut` as invoked
by `pdfs_to_text_string`, i.e. `fit_to_budget`) returns a string whose
token count under the tokenization scheme (any scheme with
`tc [] = 0`, as `cl100k_base` has) is at most `max_tokens`, or else
returns the empty string. -/
theorem C1_fit_to_budget_bound (tc : List Char → Nat) (m : Nat)
    (h0 : tc [] = 0) (hm : 0 < m) (content : List Char) :
    ∃ r, fit_to_budget tc content m = some r ∧ (tc r ≤ m ∨ r = []) := by
  by_cases hg : tc content > m
  · obtain ⟨r, hr, hrm⟩ :=
      content_token_cut_sound tc m h0 content.length content (le_refl _)
    refine ⟨r, ?_, Or.inl hrm⟩
    unfold fit_to_budget
    rw [if_pos hg]
    exact hr
  · refine ⟨content, ?_, Or.inl (by omega)⟩
    unfold fit_to_budget
    rw [if_neg hg]

theorem C1_witness :
    (List.length ([] : List Char) = 0) ∧ 0 < 1 ∧
    ∃ r, fit_to_budget List.length "ab".toList 1 = some r ∧
      (List.length r ≤ 1 ∨ r = []) :=
  ⟨rfl, Nat.one_pos, C1_fit_to_budget_bound List.length 1 rfl Nat.one_pos "ab".toList⟩

/-- Claim C4: the shrink loop of `content_token_cut` terminates for
every input string and every `max_tokens > 0` under a tokenizer with
`tc [] = 0` (as `cl100k_base` has): the model returns `some` (never the
divergence marker `none`), each iteration on non-empty content replaces
the length by `⌊0.9 ⬝ length⌋`, which is strictly smaller, and on empty
content the recomputed token count is 0 so the loop exits. -/
theorem C4_content_token_cut_terminates (tc : List Char → Nat) (m : Nat)
    (h0 : tc [] = 0) (hm : 0 < m) (content : List Char) (num_tokens : Nat) :
    (content_token_cut tc content num_tokens m).isSome = true ∧
    (content ≠ [] →
      (content.take (content.length * 9 / 10)).length = content.length * 9 / 10 ∧
      content.length * 9 / 10 < content.length) := by
  constructor
  · by_cases hg : num_tokens ≤ m
    · unfold content_token_cut
      rw [if_pos hg]
      rfl
    · by_cases hz : content.length = 0
      · have hnil : content = [] := List.length_eq_zero.mp hz
        subst hnil
        unfold content_token_cut
        rw [if_neg hg, dif_pos (show ([] : List Char).length = 0 from rfl), h0,
          if_pos (Nat.zero_le m)]
        rfl
      · obtain ⟨r, hr, _⟩ := content_token_cut_sound tc m h0
          (content.take (content.length * 9 / 10)).length
          (content.take (content.length * 9 / 10)) (le_refl _)
        unfold content_token_cut
        rw [if_neg hg, dif_neg hz, hr]
        rfl
  · intro hne
    have hz : content.length ≠ 0 := by
      intro h
      exact hne (List.length_eq_zero.mp h)
    refine ⟨?_, by omega⟩
    rw [List.length_take]
    omega

theorem C4_witness :
    (List.length ([] : List Char) = 0) ∧ 0 < 1 ∧
    (content_token_cut List.length "abc".toList 3 1).isSome = true :=
  ⟨rfl, Nat.one_pos,
    (C4_content_token_cut_terminates List.length 1 rfl Nat.one_pos "abc".toList 3).1⟩

theorem fit_to_budget_under (tc : List Char → Nat) (content : List Char)
    (m : Nat) (h : tc content ≤ m) : fit_to_budget tc content m = some content := by
  unfold fit_to_budget
  rw [if_neg (by omega)]

/-- Claim C6: when the token count of the content is already at most
`max_tokens`, the budgeting step of `pdfs_to_text_string` returns the
content completely unchanged. -/
theorem C6_under_budget_identity (tc : List Char → Nat) (content : List Char)
    (m : Nat) (h : tc content ≤ m) : fit_to_budget tc content m = some content :=
  fit_to_budget_under tc content m h

theorem C6_witness :
    List.length "hi".toList ≤ 2 ∧ fit_to_budget List.length "hi".toList 2 = some "hi".toList :=
  ⟨by decide, C6_under_budget_identity List.length "hi".toList 2 (by decide)⟩

/-- Claim C2: for every candidate (including the absent one),
`validate_and_trim_filename` returns a non-empty string of length at
most 50 whose characters all lie in `[A-Za-z0-9_]`, i.e. it matches the
pattern of 1 to 50 characters of that class. -/
theorem C2_sanitizer_guarantee (t : Tm) (ht : t.valid) (candidate : Option (List Char)) :
    validate_and_trim_filename t candidate ≠ [] ∧
    (validate_and_trim_filename t candidate).length ≤ 50 ∧
    (validate_and_trim_filename t candidate).all isAllowedChar = true :=
  validate_and_trim_spec t candidate

theorem C2_witness :
    (Tm.mk 2026 10 12 8 30 0).valid ∧
    (validate_and_trim_filename (Tm.mk 2026 10 12 8 30 0) none ≠ [] ∧
     (validate_and_trim_filename (Tm.mk 2026 10 12 8 30 0) none).length ≤ 50 ∧
     (validate_and_trim_filename (Tm.mk 2026 10 12 8 30 0) none).all isAllowedChar = true) :=
  ⟨by unfold Tm.valid; decide, C2_sanitizer_guarantee (Tm.mk 2026 10 12 8 30 0) (by unfold Tm.valid; decide) none⟩

/-- Claim C5: an absent, empty, or whitespace-only candidate yields the
fallback `empty_file_<timestamp>`, where the timestamp is the current
UTC time rendered as exactly fourteen digits `YYYYMMDDHHMMSS`, so the
result is `empty_file_` followed by exactly 14 digit characters. -/
theorem C5_empty_fallback_form (t : Tm) (ht : t.valid) :
    validate_and_trim_filename t none = "empty_file_".toList ++ strftime_YmdHMS t ∧
    validate_and_trim_filename t (some []) = "empty_file_".toList ++ strftime_YmdHMS t ∧
    validate_and_trim_filename t (some "   ".toList) =
      "empty_file_".toList ++ strftime_YmdHMS t ∧
    (strftime_YmdHMS t).length = 14 ∧
    (strftime_YmdHMS t).all Char.isDigit = true :=
  ⟨rfl, rfl, rfl, strftime_length t, strftime_all_digits t⟩

theorem C5_witness :
    (Tm.mk 2026 10 12 8 30 0).valid ∧
    validate_and_trim_filename (Tm.mk 2026 10 12 8 30 0) (some "   ".toList) =
      "empty_file_20261012083000".toList := by
  refine ⟨by unfold Tm.valid; decide, ?_⟩
  rw [(C5_empty_fallback_form (Tm.mk 2026 10 12 8 30 0) (by unfold Tm.valid; decide)).2.2.1]
  decide

/-- Claim C7: sanitization keeps exactly the characters of the class
`[A-Za-z0-9_]` (deletion with no replacement, preserving case and
relative order) and then takes the first 50 characters as a plain
prefix; in particular the two concrete examples of the spec. -/
theorem C7_clean_is_filter_take (t : Tm) :
    (∀ s : List Char, s.filter isAllowedChar ≠ [] →
       validate_and_trim_filename t (some s) = (s.filter isAllowedChar).take 50) ∧
    validate_and_trim_filename t (some "Hello, World! 2024.pdf-report".toList) =
      "HelloWorld2024pdfreport".toList ∧
    (∀ s : List Char, s.length = 60 →
       (s.all fun c =>
         ('A' ≤ c && c ≤ 'Z') || ('a' ≤ c && c ≤ 'z') || ('0' ≤ c && c ≤ '9')) = true →
       validate_and_trim_filename t (some s) = s.take 50) := by
  have hmain : ∀ s : List Char, s.filter isAllowedChar ≠ [] →
      validate_and_trim_filename t (some s) = (s.filter isAllowedChar).take 50 := by
    intro s hne
    have hs : s ≠ [] := by
      intro h
      subst h
      simp at hne
    have hsE : s.isEmpty = false := by simpa [List.isEmpty_iff] using hs
    have hcE : (s.filter isAllowedChar).isEmpty = false := by
      simpa [List.isEmpty_iff] using hne
    simp [validate_and_trim_filename, hsE, hcE]
  refine ⟨hmain, ?_, ?_⟩
  · rw [hmain _ (by decide)]
    decide
  · intro s h60 hall
    have hfil : s.filter isAllowedChar = s := by
      rw [List.filter_eq_self]
      intro a ha
      have h3 := (List.all_eq_true.mp hall) a ha
      simp only [Bool.or_eq_true] at h3
      simp only [isAllowedChar, Bool.or_eq_true]
      tauto
    have hne : s.filter isAllowedChar ≠ [] := by
      rw [hfil]
      intro h
      rw [h] at h60
      simp at h60
    rw [hmain s hne, hfil]

theorem C7_witness :
    "ab!".toList.filter isAllowedChar ≠ [] ∧
    validate_and_trim_filename (Tm.mk 2026 10 12 8 30 0) (some "ab!".toList) =
      "ab".toList := by
  refine ⟨by decide, ?_⟩
  rw [(C7_clean_is_filter_take (Tm.mk 2026 10 12 8 30 0)).1 "ab!".toList (by decide)]
  decide

/-- Claim C3: the deduplication step appends the literal `_01` to the
base exactly once when `base ++ "." ++ extension` is in the existing
set and leaves the base unchanged otherwise; no further collision
resolution is attempted even when the suffixed name also collides; the
spec's two concrete examples hold. -/
theorem C3_deduplicate_single_suffix (base extension : List Char)
    (existing : List (List Char)) :
    ((base ++ '.' :: extension) ∈ existing →
      deduplicate base existing extension = base ++ "_01".toList) ∧
    ((base ++ '.' :: extension) ∉ existing →
      deduplicate base existing extension = base) ∧
    deduplicate "report".toList ["report.pdf".toList] "pdf".toList =
      "report_01".toList ∧
    deduplicate "report".toList ["other.pdf".toList] "pdf".toList = "report".toList ∧
    deduplicate "report".toList ["report.pdf".toList, "report_01.pdf".toList]
      "pdf".toList = "report_01".toList := by
  refine ⟨?_, ?_, by decide, by decide, by decide⟩
  · intro h
    simp [deduplicate, h]
  · intro h
    simp [deduplicate, h]

theorem C3_witness :
    ("a".toList ++ '.' :: "pdf".toList) ∈ ["a.pdf".toList] ∧
    deduplicate "a".toList ["a.pdf".toList] "pdf".toList =
      "a".toList ++ "_01".toList :=
  ⟨by decide,
    (C3_deduplicate_single_suffix "a".toList "pdf".toList ["a.pdf".toList]).1 (by decide)⟩

/-- Claim C8: empty or whitespace-only extracted content is replaced by
the fixed placeholder string before any token counting or budget
trimming, and under the configured budget (`max_length = 15000`) the
placeholder is returned untruncated. -/
theorem C8_placeholder_survives (tc : List Char → Nat) (raw : List Char)
    (hws : (pyStrip raw).isEmpty = true) (hp : tc placeholder ≤ 15000) :
    pdfs_to_text_string tc raw = some placeholder ∧ max_length = 15000 := by
  refine ⟨?_, rfl⟩
  have hstep : pdfs_to_text_string tc raw = fit_to_budget tc placeholder max_length := by
    simp [pdfs_to_text_string, hws]
  rw [hstep]
  exact fit_to_budget_under tc placeholder max_length (by simpa [max_length] using hp)

theorem C8_witness :
    (pyStrip "   ".toList).isEmpty = true ∧
    List.length placeholder ≤ 15000 ∧
    pdfs_to_text_string List.length "   ".toList = some placeholder :=
  ⟨by decide, by decide,
    (C8_placeholder_survives List.length "   ".toList (by decide) (by decide)).1⟩

/-- Claim C10 (implicit): the final base name used for the rename is
either the sanitized name or the sanitized name with `_01` appended, so
on a collision its length can reach 53 characters; the 50-character
bound of the sanitized name does not bound the final base, and 53 is
attained at a concrete input. -/
theorem C10_final_base_up_to_53 (t : Tm) (ht : t.valid)
    (candidate : Option (List Char)) (existing : List (List Char)) :
    (deduplicate (validate_and_trim_filename t candidate) existing "pdf".toList =
        validate_and_trim_filename t candidate ∨
      deduplicate (validate_and_trim_filename t candidate) existing "pdf".toList =
        validate_and_trim_filename t candidate ++ "_01".toList) ∧
    (deduplicate (validate_and_trim_filename t candidate) existing "pdf".toList).length
      ≤ 53 ∧
    (deduplicate base50 [base50 ++ ".pdf".toList] "pdf".toList).length = 53 := by
  have hb := (validate_and_trim_spec t candidate).2.1
  refine ⟨?_, ?_, by decide⟩
  · unfold deduplicate
    by_cases h :
        (validate_and_trim_filename t candidate ++ '.' :: "pdf".toList) ∈ existing
    · rw [if_pos h]
      exact Or.inr rfl
    · rw [if_neg h]
      exact Or.inl rfl
  · unfold deduplicate
    by_cases h :
        (validate_and_trim_filename t candidate ++ '.' :: "pdf".toList) ∈ existing
    · rw [if_pos h, List.length_append]
      have : ("_01".toList).length = 3 := by decide
      omega
    · rw [if_neg h]
      omega

theorem C10_witness :
    (Tm.mk 2026 10 12 8 30 0).valid ∧
    (deduplicate base50 [base50 ++ ".pdf".toList] "pdf".toList).length = 53 := by
  refine ⟨by unfold Tm.valid; decide, ?_⟩
  exact (C10_final_base_up_to_53 (Tm.mk 2026 10 12 8 30 0)
    (by unfold Tm.valid; decide) none []).2.2

/-- Claim C9, code behavior at the failing input: in a two-file batch
where the OpenAI call raises on the first file, the per-directory loop
aborts with that exception and the second file is never processed — the
failure is not caught at the per-file boundary.  By contrast, a rename
failure on every file is caught and the batch still reaches both files.
This refutes the claim that a generation-service failure is fatal for
the current file only. -/
theorem C9_gen_failure_aborts_batch :
    rename_pdfs_in_directory List.length (Tm.mk 2026 10 12 8 30 0)
        (fun _ => "x".toList) (fun _ => none) (fun _ => []) (fun _ => true)
        ["a.pdf".toList, "b.pdf".toList] = Except.error "a.pdf".toList ∧
    rename_pdfs_in_directory List.length (Tm.mk 2026 10 12 8 30 0)
        (fun _ => "x".toList) (fun _ => some "x".toList) (fun _ => []) (fun _ => false)
        ["a.pdf".toList, "b.pdf".toList] =
      Except.ok [("a.pdf".toList, RenameOutcome.renameError "x.pdf".toList),
                 ("b.pdf".toList, RenameOutcome.renameError "x.pdf".toList)] :=
  ⟨rfl, rfl⟩
